import Mathlib

/-!
Verification of the charm client (package `client`, file `client.go`).

A shallow embedding of the client-side key-resolution and SSH-RPC layer.
Go functions become Lean functions; external effects (file system, SSH
agent dial, key-file parsing, the remote session, the authenticated
HTTP-JSON helper) are supplied by explicit oracle structures, and the
side effects a function performs are returned as an explicit event trace.
Errors from the external `charm` proto package (`ErrMissingSSHAuth`,
`ErrCouldNotUnlinkKey`, `ErrNameInvalid`) become constructors of `Err`.
-/

namespace Charm

/-- Errors. Distinguished proto-package error values get their own
constructors; everything else is wrapped in `other`. -/
inductive Err where
  /-- The proto error `charm.ErrMissingSSHAuth`. -/
  | missingSSHAuth
  /-- The proto error `charm.ErrCouldNotUnlinkKey`. -/
  | couldNotUnlinkKey
  /-- The proto error `charm.ErrNameInvalid`. -/
  | nameInvalid
  /-- The error `fmt.Errorf("no SSH_AUTH_SOCK set")` in `getLocalAgentConn`. -/
  | noAuthSock
  /-- The error `fmt.Errorf("failed to connect to SSH_AUTH_SOCK: %w", err)`. -/
  | agentDialFailed
  /-- The error `fmt.Errorf("err: %s", b)` in `LinkKeyToUser`. -/
  | outputErr (b : String)
  /-- The error `errors.New("no user data received")` in `Bio`. -/
  | noUserData
  /-- an error returned by `filepath.Glob` -/
  | globErr
  /-- any other error value (data-path resolution, keygen, key file
  read/parse, transport, HTTP) -/
  | other (s : String)
deriving DecidableEq, Repr

/-- The client configuration (`Config` in client.go). Fields keep the Go
names. `Debug` and `Logfile` are carried but unused by the core. -/
structure Config where
  Host : String
  SSHPort : Int
  HTTPPort : Int
  Debug : Bool
  Logfile : String
  KeyType : String
  DataDir : String
  IdentityKey : String
  UseSSHAgent : Bool
  SSHAgentAddr : String
deriving DecidableEq, Repr

/-- Membership in the class of `var nameValidator = regexp.MustCompile("^[a-zA-Z0-9]{1,50}$")`:
a character belongs to the regex class `[a-zA-Z0-9]`. -/
def isNameChar (c : Char) : Bool :=
  c.isAlpha || c.isDigit

/-- Embeds `nameValidator.MatchString name`: the pattern is anchored on both
sides, so it matches exactly the strings made of 1 to 50 characters of
the class `[a-zA-Z0-9]`. -/
def ValidateName (name : String) : Bool :=
  decide (1 ≤ name.length) && decide (name.length ≤ 50) &&
    name.data.all isNameChar

/-- Embeds `strings.ToLower` (ASCII range), computed structurally over the
character list so that concrete instances reduce. -/
def lowerString (s : String) : String :=
  String.mk (s.data.map Char.toLower)

/-- Embeds `strings.TrimSpace`: strip leading and trailing whitespace, computed
structurally over the character list. -/
def trimString (s : String) : String :=
  String.mk
    (((s.data.dropWhile Char.isWhitespace).reverse.dropWhile
      Char.isWhitespace).reverse)

/-- Embeds `strings.HasPrefix`, the matching step of the `charm_*` glob, computed
structurally over the character lists. -/
def strHasPre (p s : String) : Bool :=
  p.data.isPrefixOf s.data

/-- The keygen key types used by `Config.KeygenType`
(`keygen.Ed25519`, `keygen.RSA`, `keygen.ECDSA`). -/
inductive KeyType where
  | ed25519
  | rsa
  | ecdsa
deriving DecidableEq, Repr

/-- Embeds `Config.KeygenType` from client.go: lower-case the configured key
type and map it; anything unrecognized falls through to Ed25519. -/
def Config.KeygenType (cfg : Config) : Charm.KeyType :=
  let kt := lowerString cfg.KeyType
  if kt = "ed25519" then .ed25519
  else if kt = "rsa" then .rsa
  else if kt = "ecdsa" then .ecdsa
  else .ed25519

/-- An SSH authentication method (`ssh.AuthMethod`). `agentM` is the
`ssh.PublicKeysCallback(agent.NewClient(conn).Signers)` method built from
an agent connection; `publicKeys` is `ssh.PublicKeys(signer)` built by
`publicKeyAuthMethod` from an on-disk key, identified here by the signer
the oracle parsed out of the key file. -/
inductive AuthMethod where
  | agentM (conn : Nat)
  | publicKeys (signer : String)
deriving DecidableEq, Repr

/-- External effects performed during construction and by the SSH-RPC
operations, recorded as a trace. -/
inductive Event where
  /-- one invocation of `findAuthKeys` (its glob over the data dir) -/
  | findKeys
  /-- one invocation of `keygen.NewWithWrite` -/
  | keygenE
  /-- one `net.Dial("unix", socket)` to the SSH agent -/
  | agentDialE
  /-- one `publicKeyAuthMethod` read+parse of the key file at `p` -/
  | readKeyE (p : String)
  /-- one `ssh.Dial("tcp", host:port, ...)` to the remote host -/
  | remoteDial
deriving DecidableEq, Repr

/-- The environment `NewClient` runs against: results of the external
calls it may make. File names are basenames relative to the data dir. -/
structure World where
  /-- result of `cc.DataPath()` -/
  dataPath : Except Err String
  /-- basenames present in the data dir before construction -/
  fsFiles : List String
  /-- whether `filepath.Glob` fails on the first `findAuthKeys` call -/
  glob1Fails : Bool
  /-- whether `filepath.Glob` fails on the second `findAuthKeys` call -/
  glob2Fails : Bool
  /-- result of `keygen.NewWithWrite`: on success, the basenames it
  wrote into the data dir -/
  keygen : Except Err (List String)
  /-- Value of `os.Getenv("SSH_AUTH_SOCK")`. -/
  sshAuthSockEnv : String
  /-- Outcome of `net.Dial("unix", socket)`: `some conn` on success. -/
  agentDial : String → Option Nat
  /-- The `publicKeyAuthMethod` key-path expansion, file read and
  `ssh.ParsePrivateKey`, collapsed to the resulting signer -/
  readKey : String → Except Err String

/-- The constructed client: configuration plus the assembled
`ssh.ClientConfig.Auth` method list (`pkam`). -/
structure Client where
  config : Config
  sshAuth : List AuthMethod
deriving Repr

/-- Embeds `findAuthKeys` from client.go, for a given file-system state
`files`: resolve the data path, glob `charm_*`, return nil when the glob
is empty, otherwise keep the files whose basename is `charm_<keyType>`,
as full paths. -/
def findAuthKeysRun (w : World) (files : List String) (globFails : Bool)
    (keyType : String) : Except Err (List String) :=
  match w.dataPath with
  | .error e => .error e
  | .ok keyPath =>
    if globFails then .error .globErr
    else
      let m := files.filter (fun f => strHasPre "charm_" f)
      if m.length = 0 then .ok []
      else .ok ((m.filter (fun f => f = "charm_" ++ keyType)).map
        (fun f => keyPath ++ "/" ++ f))

/-- The key-resolution phase of `NewClient` (client.go lines 76-99):
explicit identity key bypasses discovery; otherwise discover, and on an
empty result generate once and discover again. Returns the resolved
`sshKeys` together with the trace of external calls made. -/
def newClientKeys (cfg : Config) (w : World) :
    Except Err (List String) × List Event :=
  if cfg.IdentityKey ≠ "" then (.ok [cfg.IdentityKey], [])
  else
    match findAuthKeysRun w w.fsFiles w.glob1Fails cfg.KeyType with
    | .error e => (.error e, [.findKeys])
    | .ok ks =>
      if ks.length = 0 then
        match w.dataPath with
        | .error e => (.error e, [.findKeys])
        | .ok _dp =>
          match w.keygen with
          | .error e => (.error e, [.findKeys, .keygenE])
          | .ok newFiles =>
            match findAuthKeysRun w (w.fsFiles ++ newFiles) w.glob2Fails
                cfg.KeyType with
            | .error e => (.error e, [.findKeys, .keygenE, .findKeys])
            | .ok ks2 => (.ok ks2, [.findKeys, .keygenE, .findKeys])
      else (.ok ks, [.findKeys])

/-- Embeds `getLocalAgentConn` from client.go: prefer the configured agent
address; when it is blank fall back to `$SSH_AUTH_SOCK`; an empty socket
is an error, and a failed unix dial is an error. -/
def getLocalAgentConn (cfg : Config) (w : World) : Except Err Nat :=
  let socket :=
    if trimString cfg.SSHAgentAddr = "" then w.sshAuthSockEnv
    else cfg.SSHAgentAddr
  if socket = "" then .error .noAuthSock
  else
    match w.agentDial socket with
    | none => .error .agentDialFailed
    | some conn => .ok conn

/-- The loop over `sshKeys` in `NewClient` (lines 111-117): build one
public-key auth method per key path via `publicKeyAuthMethod`, aborting
on the first failure. -/
def buildKeyMethods (w : World) : List String →
    Except Err (List AuthMethod) × List Event
  | [] => (.ok [], [])
  | k :: rest =>
    match w.readKey k with
    | .error e => (.error e, [.readKeyE k])
    | .ok s =>
      match buildKeyMethods w rest with
      | (.error e, tr) => (.error e, .readKeyE k :: tr)
      | (.ok ms, tr) => (.ok (AuthMethod.publicKeys s :: ms), .readKeyE k :: tr)

/-- Embeds `NewClient` from client.go: key resolution, then the optional agent
method, then one public-key method per resolved key, then the non-empty
check on the assembled list. Returns the result and the full trace of
external calls. -/
def runNewClient (cfg : Config) (w : World) :
    Except Err Client × List Event :=
  match newClientKeys cfg w with
  | (.error e, tr) => (.error e, tr)
  | (.ok sshKeys, tr1) =>
    let agentPart : Except Err (List AuthMethod) × List Event :=
      if cfg.UseSSHAgent then
        match getLocalAgentConn cfg w with
        | .error e => (.error e, [.agentDialE])
        | .ok conn => (.ok [AuthMethod.agentM conn], [.agentDialE])
      else (.ok [], [])
    match agentPart with
    | (.error e, tr2) => (.error e, tr1 ++ tr2)
    | (.ok agentMs, tr2) =>
      match buildKeyMethods w sshKeys with
      | (.error e, tr3) => (.error e, tr1 ++ tr2 ++ tr3)
      | (.ok keyMs, tr3) =>
        let pkam := agentMs ++ keyMs
        (if pkam.length = 0 then .error .missingSSHAuth
         else .ok { config := cfg, sshAuth := pkam },
         tr1 ++ tr2 ++ tr3)

/-- An `ssh.PublicKey` as `keyText` consumes it: its algorithm name
(`key.Type()`) and the base64 encoding of its wire form
(`base64.StdEncoding.EncodeToString(key.Marshal())`), the latter kept
abstract as the already-encoded string. -/
structure SSHPublicKey where
  keyType : String
  b64 : String
deriving DecidableEq, Repr

/-- Embeds `keyText` from client.go: `fmt.Sprintf("%s %s", key.Type(), kb)`. -/
def keyText (key : SSHPublicKey) : String :=
  key.keyType ++ " " ++ key.b64

/-- The environment one SSH-RPC operation runs against. `marshal s` is
the JSON encoding `json.Marshal` produces for `charm.PublicKey{Key: s}`;
`json.Encoder.Encode` writes those same bytes followed by a newline. -/
structure SessionWorld where
  /-- outcome of `cc.sshSession()` (the `ssh.Dial` plus `NewSession`) -/
  session : Except Err Unit
  /-- outcome of `s.StdinPipe()` -/
  stdinPipe : Except Err Unit
  /-- error from the `json.NewEncoder(in).Encode(k)` write, if any -/
  encodeErr : Option Err
  /-- error from `json.Marshal(&k)`, if any -/
  marshalErr : Option Err
  /-- JSON bytes of `charm.PublicKey{Key: s}` -/
  marshal : String → String
  /-- Result of `s.Output(cmd)`: the remote command's captured output, or the
  session error for a non-zero exit -/
  output : String → Except Err String

/-- The observable run of one SSH-RPC operation: its result, the
external events (remote dials), the complete payloads written to the
session's stdin, and the remote command strings executed. -/
structure OpRun (α : Type) where
  result : Except Err α
  events : List Event
  stdinWrites : List String
  commands : List String
deriving Repr

/-- Embeds `cc.sshSession()`: one `ssh.Dial` to the configured host plus
`NewSession`. -/
def sshSessionRun (sw : SessionWorld) : Except Err Unit × List Event :=
  (sw.session, [.remoteDial])

/-- Embeds `ID` from client.go: open a session and run `id`. -/
def runID (sw : SessionWorld) : OpRun String :=
  match sshSessionRun sw with
  | (.error e, tr) => ⟨.error e, tr, [], []⟩
  | (.ok _, tr) =>
    match sw.output "id" with
    | .error e => ⟨.error e, tr, [], ["id"]⟩
    | .ok b => ⟨.ok b, tr, [], ["id"]⟩

/-- Embeds `LinkKeyToUser` from client.go: build `charm.PublicKey{Key:
keyText(key)}`, stream its JSON on stdin, run `api-add-key <json>`, and
treat any non-empty output as the error `fmt.Errorf("err: %s", b)`. -/
def LinkKeyToUser (sw : SessionWorld) (key : SSHPublicKey) : OpRun Unit :=
  match sshSessionRun sw with
  | (.error e, tr) => ⟨.error e, tr, [], []⟩
  | (.ok _, tr) =>
    let k := keyText key
    match sw.stdinPipe with
    | .error e => ⟨.error e, tr, [], []⟩
    | .ok _ =>
      match sw.encodeErr with
      | some e => ⟨.error e, tr, [], []⟩
      | none =>
        let streamed := sw.marshal k ++ "\n"
        match sw.marshalErr with
        | some e => ⟨.error e, tr, [streamed], []⟩
        | none =>
          let j := sw.marshal k
          let cmd := "api-add-key " ++ j
          match sw.output cmd with
          | .error e => ⟨.error e, tr, [streamed], [cmd]⟩
          | .ok b =>
            if b.length ≠ 0 then ⟨.error (.outputErr b), tr, [streamed], [cmd]⟩
            else ⟨.ok (), tr, [streamed], [cmd]⟩

/-- Embeds `UnlinkAuthorizedKey` from client.go: build `charm.PublicKey{Key:
key}`, stream its JSON on stdin, run `api-unlink <json>`, and treat any
non-empty output as `charm.ErrCouldNotUnlinkKey`. -/
def UnlinkAuthorizedKey (sw : SessionWorld) (key : String) : OpRun Unit :=
  match sshSessionRun sw with
  | (.error e, tr) => ⟨.error e, tr, [], []⟩
  | (.ok _, tr) =>
    match sw.stdinPipe with
    | .error e => ⟨.error e, tr, [], []⟩
    | .ok _ =>
      match sw.encodeErr with
      | some e => ⟨.error e, tr, [], []⟩
      | none =>
        let streamed := sw.marshal key ++ "\n"
        match sw.marshalErr with
        | some e => ⟨.error e, tr, [streamed], []⟩
        | none =>
          let j := sw.marshal key
          let cmd := "api-unlink " ++ j
          match sw.output cmd with
          | .error e => ⟨.error e, tr, [streamed], [cmd]⟩
          | .ok b =>
            if b.length ≠ 0 then
              ⟨.error .couldNotUnlinkKey, tr, [streamed], [cmd]⟩
            else ⟨.ok (), tr, [streamed], [cmd]⟩

/-- The record `charm.User` as the client consumes it: account name (empty =
unset) and creation timestamp. -/
structure User where
  name : String
  createdAt : Nat
deriving DecidableEq, Repr

/-- One call to the authenticated HTTP-JSON collaborator, recorded for
the trace: its method and path. -/
structure HttpCall where
  method : String
  path : String
deriving DecidableEq, Repr

/-- The authenticated HTTP-JSON collaborator (`cc.AuthedJSONRequest`,
outside this core): given method, path and request body, either an error
or the response body decoded into the target. -/
structure HttpWorld where
  authedJSONRequest : String → String → User → Except Err User

/-- Embeds `SetName` from client.go: validate, and only then POST the user to
`/v1/bio`, returning the response body. An invalid name returns
`charm.ErrNameInvalid` before any call is made. -/
def SetName (hw : HttpWorld) (name : String) :
    Except Err User × List HttpCall :=
  if ¬ ValidateName name then (.error .nameInvalid, [])
  else
    let u : User := { name := name, createdAt := 0 }
    match hw.authedJSONRequest "POST" "/v1/bio" u with
    | .error e => (.error e, [⟨"POST", "/v1/bio"⟩])
    | .ok u2 => (.ok u2, [⟨"POST", "/v1/bio"⟩])

/-- Embeds `Bio` from client.go: fetch the identity over SSH, GET
`/v1/id/<id>`, and return the user the response was decoded into. The
local `u` is a never-reassigned pointer, modelled as an `Option User`
that is `some` by construction; the `u == nil` check is the `none`
branch. -/
def Bio (sw : SessionWorld) (hw : HttpWorld) :
    Except Err User × List Event × List HttpCall :=
  match runID sw with
  | ⟨.error e, tr, _, _⟩ => (.error e, tr, [])
  | ⟨.ok id, tr, _, _⟩ =>
    let path := "/v1/id/" ++ id
    match hw.authedJSONRequest "GET" path { name := "", createdAt := 0 } with
    | .error e => (.error e, tr, [⟨"GET", path⟩])
    | .ok u2 =>
      let uPtr : Option User := some u2
      match uPtr with
      | none => (.error .noUserData, tr, [⟨"GET", path⟩])
      | some u => (.ok u, tr, [⟨"GET", path⟩])

/-! Section: Shared fixtures and helper lemmas -/

/-- A default configuration matching the env-tag defaults in client.go. -/
def cfg0 : Config :=
  { Host := "cloud.charm.sh", SSHPort := 35353, HTTPPort := 35354
    Debug := false, Logfile := "", KeyType := "ed25519", DataDir := ""
    IdentityKey := "", UseSSHAgent := false, SSHAgentAddr := "" }

/-- A session environment where every external step succeeds and the
remote command produces empty output. -/
def sw0 : SessionWorld :=
  { session := .ok (), stdinPipe := .ok (), encodeErr := none
    marshalErr := none
    marshal := fun s => "\x7b\"key\":\"" ++ s ++ "\"\x7d"
    output := fun _ => .ok "" }

/-- An HTTP collaborator that echoes the request body back. -/
def hw0 : HttpWorld :=
  { authedJSONRequest := fun _ _ u => .ok u }

lemma isNameChar_iff (c : Char) : isNameChar c = true ↔
    (('A' ≤ c ∧ c ≤ 'Z') ∨ ('a' ≤ c ∧ c ≤ 'z') ∨ ('0' ≤ c ∧ c ≤ '9')) := by
  unfold isNameChar
  simp [Char.isAlpha, Char.isUpper, Char.isLower, Char.isDigit,
    Char.le_def, or_assoc]

lemma validateName_iff (s : String) : ValidateName s = true ↔
    (1 ≤ s.length ∧ s.length ≤ 50 ∧ ∀ c ∈ s.data,
      (('A' ≤ c ∧ c ≤ 'Z') ∨ ('a' ≤ c ∧ c ≤ 'z') ∨ ('0' ≤ c ∧ c ≤ '9'))) := by
  unfold ValidateName
  simp [List.all_eq_true, isNameChar_iff, and_assoc]

/-! Section: C3: name validation and the SetName guard -/

/-- Claim C3: `ValidateName` accepts exactly the strings matching
`^[A-Za-z0-9]{1,50}$` (so it rejects the empty string, any string with a
character outside the class, and any string longer than 50), and
`SetName` on a rejected name returns `charm.ErrNameInvalid` having made
no HTTP call. -/
theorem validateName_regex_and_setName_guard :
    (∀ s : String, ValidateName s = true ↔
      (1 ≤ s.length ∧ s.length ≤ 50 ∧ ∀ c ∈ s.data,
        (('A' ≤ c ∧ c ≤ 'Z') ∨ ('a' ≤ c ∧ c ≤ 'z') ∨ ('0' ≤ c ∧ c ≤ '9')))) ∧
    (∀ (hw : HttpWorld) (name : String), ValidateName name = false →
      SetName hw name = (.error .nameInvalid, [])) := by
  refine ⟨validateName_iff, fun hw name h => ?_⟩
  simp [SetName, h]

/-- Witness for C3 at the concrete rejected name `"not valid!"`. -/
theorem validateName_regex_and_setName_guard_w :
    SetName hw0 "not valid!" = (.error .nameInvalid, []) :=
  validateName_regex_and_setName_guard.2 hw0 "not valid!" (by decide)

/-! Section: C9: KeygenType totality and case handling -/

/-- Claim C9: `Config.KeygenType` is total and case-insensitive: it maps a
configured key type whose lower-casing is `"ed25519"`, `"rsa"` or
`"ecdsa"` to the corresponding keygen type, and everything else
(including the empty string) to Ed25519. -/
theorem keygenType_total_case_insensitive (cfg : Config) :
    (lowerString cfg.KeyType = "ed25519" → cfg.KeygenType = .ed25519) ∧
    (lowerString cfg.KeyType = "rsa" → cfg.KeygenType = .rsa) ∧
    (lowerString cfg.KeyType = "ecdsa" → cfg.KeygenType = .ecdsa) ∧
    ((lowerString cfg.KeyType ≠ "ed25519" ∧ lowerString cfg.KeyType ≠ "rsa" ∧
      lowerString cfg.KeyType ≠ "ecdsa") → cfg.KeygenType = .ed25519) := by
  refine ⟨fun h => by simp [Config.KeygenType, h],
    fun h => by simp [Config.KeygenType, h],
    fun h => by simp [Config.KeygenType, h],
    fun h => by simp [Config.KeygenType, h.1, h.2.1, h.2.2]⟩

/-- Witness for C9: an upper-cased `"RSA"` maps to RSA, and the empty
key type falls back to Ed25519. -/
theorem keygenType_total_case_insensitive_w :
    ({ cfg0 with KeyType := "RSA" } : Config).KeygenType = .rsa ∧
    ({ cfg0 with KeyType := "" } : Config).KeygenType = .ed25519 :=
  ⟨(keygenType_total_case_insensitive _).2.1 (by decide),
   (keygenType_total_case_insensitive _).2.2.2 (by decide)⟩

lemma eq_empty_of_length_zero : ∀ {b : String}, b.length = 0 → b = ""
  | ⟨[]⟩, _ => rfl
  | ⟨_ :: _⟩, h => by simp at h

/-! Section: C4: the unlink output contract -/

/-- Claim C4: When the unlink session's `Output` call succeeds with bytes
`b`: empty `b` yields success, and any non-empty `b` yields exactly
`charm.ErrCouldNotUnlinkKey`. -/
theorem unlink_output_contract (sw : SessionWorld) (key b : String)
    (hs : sw.session = .ok ()) (hp : sw.stdinPipe = .ok ())
    (he : sw.encodeErr = none) (hm : sw.marshalErr = none)
    (hb : sw.output ("api-unlink " ++ sw.marshal key) = .ok b) :
    (b = "" → (UnlinkAuthorizedKey sw key).result = .ok ()) ∧
    (b ≠ "" → (UnlinkAuthorizedKey sw key).result =
      .error .couldNotUnlinkKey) := by
  unfold UnlinkAuthorizedKey sshSessionRun
  rw [hs, hp, he, hm]
  simp only [hb]
  constructor
  · intro h
    subst h
    simp
  · intro h
    have hl : b.length ≠ 0 := fun h0 => h (eq_empty_of_length_zero h0)
    simp [hl]

/-- Witness for C4 against `sw0`, whose remote output is empty. -/
theorem unlink_output_contract_w :
    (UnlinkAuthorizedKey sw0 "ssh-ed25519 AAAA").result = .ok () :=
  (unlink_output_contract sw0 "ssh-ed25519 AAAA" "" rfl rfl rfl rfl rfl).1 rfl

/-! Section: C8: link/unlink send the payload twice -/

/-- Claim C8: Both `LinkKeyToUser` and `UnlinkAuthorizedKey` send the JSON
encoding of the same `charm.PublicKey` record twice: streamed on the
session's stdin (with the encoder's trailing newline) and inline in the
remote command after `api-add-key` / `api-unlink`. -/
theorem link_unlink_json_twice (sw : SessionWorld) (pk : SSHPublicKey)
    (key : String)
    (hs : sw.session = .ok ()) (hp : sw.stdinPipe = .ok ())
    (he : sw.encodeErr = none) (hm : sw.marshalErr = none) :
    ((LinkKeyToUser sw pk).stdinWrites = [sw.marshal (keyText pk) ++ "\n"] ∧
     (LinkKeyToUser sw pk).commands =
       ["api-add-key " ++ sw.marshal (keyText pk)]) ∧
    ((UnlinkAuthorizedKey sw key).stdinWrites = [sw.marshal key ++ "\n"] ∧
     (UnlinkAuthorizedKey sw key).commands =
       ["api-unlink " ++ sw.marshal key]) := by
  unfold LinkKeyToUser UnlinkAuthorizedKey sshSessionRun
  rw [hs, hp, he, hm]
  constructor
  · rcases h : sw.output ("api-add-key " ++ sw.marshal (keyText pk)) with e | b
    · simp [h]
    · simp only [h]
      split <;> simp
  · rcases h : sw.output ("api-unlink " ++ sw.marshal key) with e | b
    · simp [h]
    · simp only [h]
      split <;> simp

/-- Witness for C8 at a concrete key under `sw0`: the streamed payload
is the inline JSON plus a newline. -/
theorem link_unlink_json_twice_w :
    (LinkKeyToUser sw0 ⟨"ssh-ed25519", "AAAA"⟩).stdinWrites =
      ["\x7b\"key\":\"ssh-ed25519 AAAA\"\x7d\n"] ∧
    (LinkKeyToUser sw0 ⟨"ssh-ed25519", "AAAA"⟩).commands =
      ["api-add-key \x7b\"key\":\"ssh-ed25519 AAAA\"\x7d"] :=
  (link_unlink_json_twice sw0 ⟨"ssh-ed25519", "AAAA"⟩ "k"
    rfl rfl rfl rfl).1

/-! Section: C10: Bio's nil-user branch is unreachable -/

/-- Claim C10: `Bio` never returns the `no user data received` error: the
user pointer it decodes into is non-nil by construction, and `Bio`
errors exactly when the identity fetch errors or the HTTP-JSON request
errors. -/
theorem bio_never_noUserData (sw : SessionWorld) (hw : HttpWorld) :
    (∀ e, (Bio sw hw).1 = .error e →
      ((runID sw).result = .error e ∨
        (∃ id, (runID sw).result = .ok id ∧
          hw.authedJSONRequest "GET" ("/v1/id/" ++ id)
            { name := "", createdAt := 0 } = .error e))) ∧
    ((∃ e, (Bio sw hw).1 = .error e) ↔
      ((∃ e, (runID sw).result = .error e) ∨
        (∃ id e, (runID sw).result = .ok id ∧
          hw.authedJSONRequest "GET" ("/v1/id/" ++ id)
            { name := "", createdAt := 0 } = .error e))) := by
  rcases hid : runID sw with ⟨r, tr, ws, cs⟩
  rcases r with e | id
  · simp [Bio, hid]
  · rcases hreq : hw.authedJSONRequest "GET" ("/v1/id/" ++ id)
        { name := "", createdAt := 0 } with e | u
    · simp [Bio, hid, hreq]
    · simp [Bio, hid, hreq]

/-- Witness for C10 against `sw0`/`hw0`: both collaborators succeed,
`Bio` returns the decoded user, and the error characterization holds at
this concrete instance. -/
theorem bio_never_noUserData_w :
    (Bio sw0 hw0).1 = .ok { name := "", createdAt := 0 } ∧
    ((∃ e, (Bio sw0 hw0).1 = .error e) ↔
      ((∃ e, (runID sw0).result = .error e) ∨
        (∃ id e, (runID sw0).result = .ok id ∧
          hw0.authedJSONRequest "GET" ("/v1/id/" ++ id)
            { name := "", createdAt := 0 } = .error e))) :=
  ⟨rfl, (bio_never_noUserData sw0 hw0).2⟩

/-! Section: Construction-phase helper lemmas -/

lemma newClientKeys_events (cfg : Config) (w : World) :
    ∀ ev ∈ (newClientKeys cfg w).2,
      ev = Event.findKeys ∨ ev = Event.keygenE := by
  intro ev hev
  unfold newClientKeys at hev
  split at hev
  · simp at hev
  · split at hev
    · simp at hev; simp [hev]
    · split at hev
      · split at hev
        · simp at hev; simp [hev]
        · split at hev
          · simp at hev; rcases hev with h | h <;> simp [h]
          · split at hev <;>
              (simp at hev; rcases hev with h | h | h <;> simp [h])
      · simp at hev; simp [hev]

lemma buildKeyMethods_tr (w : World) :
    ∀ (ks : List String) (ev : Event), ev ∈ (buildKeyMethods w ks).2 →
      ∃ p, ev = Event.readKeyE p ∧ p ∈ ks := by
  intro ks
  induction ks with
  | nil => intro ev hev; simp [buildKeyMethods] at hev
  | cons k rest ih =>
    intro ev hev
    unfold buildKeyMethods at hev
    rcases hr : w.readKey k with e | s <;> rw [hr] at hev
    · simp at hev
      exact ⟨k, hev, by simp⟩
    · rcases hb : buildKeyMethods w rest with ⟨br, tr⟩
      rw [hb] at hev
      rcases br with e | ms <;>
        (simp at hev
         rcases hev with h | h
         · exact ⟨k, h, by simp⟩
         · obtain ⟨p, hp, hmem⟩ := ih ev (by rw [hb]; exact h)
           exact ⟨p, hp, by simp [hmem]⟩)

lemma buildKeyMethods_ok (w : World) :
    ∀ (ks : List String) (ms : List AuthMethod),
      (buildKeyMethods w ks).1 = .ok ms →
      List.Forall₂
        (fun k m => ∃ s, w.readKey k = .ok s ∧ m = AuthMethod.publicKeys s)
        ks ms := by
  intro ks
  induction ks with
  | nil =>
    intro ms h
    simp [buildKeyMethods] at h
    subst h
    constructor
  | cons k rest ih =>
    intro ms h
    unfold buildKeyMethods at h
    rcases hr : w.readKey k with e | s <;> rw [hr] at h
    · simp at h
    · rcases hb : buildKeyMethods w rest with ⟨br, tr⟩
      rw [hb] at h
      rcases br with e | ms' <;> simp at h
      subst h
      exact List.Forall₂.cons ⟨s, hr, rfl⟩ (ih ms' (by rw [hb]))

lemma runNewClient_tr (cfg : Config) (w : World) :
    ∃ tr2 tr3,
      (runNewClient cfg w).2 = (newClientKeys cfg w).2 ++ tr2 ++ tr3 ∧
      (tr2 = [] ∨ tr2 = [Event.agentDialE]) ∧
      (tr3 = [] ∨ ∃ ks, (newClientKeys cfg w).1 = .ok ks ∧
        tr3 = (buildKeyMethods w ks).2) := by
  rcases hk : newClientKeys cfg w with ⟨r, tr1⟩
  unfold runNewClient
  rw [hk]
  rcases r with e | sshKeys
  · exact ⟨[], [], by simp, Or.inl rfl, Or.inl rfl⟩
  · by_cases ha : cfg.UseSSHAgent
    · simp only [ha, if_true]
      rcases hg : getLocalAgentConn cfg w with e | conn
      · exact ⟨[Event.agentDialE], [], by simp, Or.inr rfl, Or.inl rfl⟩
      · rcases hb : buildKeyMethods w sshKeys with ⟨br, tr3⟩
        refine ⟨[Event.agentDialE], tr3, ?_, Or.inr rfl,
          Or.inr ⟨sshKeys, rfl, by rw [hb]⟩⟩
        rcases br with e | ms <;> simp
    · simp only [ha, if_false]
      rcases hb : buildKeyMethods w sshKeys with ⟨br, tr3⟩
      refine ⟨[], tr3, ?_, Or.inl rfl,
        Or.inr ⟨sshKeys, rfl, by rw [hb]⟩⟩
      rcases br with e | ms <;> simp

lemma runNewClient_no_remoteDial (cfg : Config) (w : World) :
    Event.remoteDial ∉ (runNewClient cfg w).2 := by
  obtain ⟨tr2, tr3, htr, h2, h3⟩ := runNewClient_tr cfg w
  rw [htr]
  intro hmem
  simp only [List.mem_append] at hmem
  rcases hmem with (h | h) | h
  · rcases newClientKeys_events cfg w _ h with h' | h' <;> simp at h'
  · rcases h2 with h2 | h2 <;> (subst h2; simp at h)
  · rcases h3 with h3 | ⟨ks, _, h3⟩
    · subst h3; simp at h
    · subst h3
      obtain ⟨p, hp, _⟩ := buildKeyMethods_tr w ks _ h
      simp at hp

lemma runNewClient_empty_keys (cfg : Config) (w : World)
    (hagent : cfg.UseSSHAgent = false)
    (hkeys : (newClientKeys cfg w).1 = .ok []) :
    (runNewClient cfg w).1 = .error .missingSSHAuth := by
  rcases hk : newClientKeys cfg w with ⟨r, tr1⟩
  rw [hk] at hkeys
  have hr : r = Except.ok [] := hkeys
  subst hr
  unfold runNewClient
  rw [hk]
  simp [hagent, buildKeyMethods]

lemma runNewClient_ok_inv (cfg : Config) (w : World) (c : Client)
    (h : (runNewClient cfg w).1 = .ok c) :
    ∃ ks agentMs ms,
      (newClientKeys cfg w).1 = .ok ks ∧
      (buildKeyMethods w ks).1 = .ok ms ∧
      (cfg.UseSSHAgent = true → ∃ conn,
        getLocalAgentConn cfg w = .ok conn ∧
        agentMs = [AuthMethod.agentM conn]) ∧
      (cfg.UseSSHAgent = false → agentMs = []) ∧
      c = { config := cfg, sshAuth := agentMs ++ ms } := by
  rcases hk : newClientKeys cfg w with ⟨r, tr1⟩
  unfold runNewClient at h
  rw [hk] at h
  rcases r with e | sshKeys
  · simp at h
  · by_cases ha : cfg.UseSSHAgent
    · simp only [ha, if_true] at h
      rcases hg : getLocalAgentConn cfg w with e | conn <;> rw [hg] at h
      · simp at h
      · rcases hb : buildKeyMethods w sshKeys with ⟨br, tr3⟩
        rw [hb] at h
        rcases br with e | ms
        · simp at h
        · simp at h
          exact ⟨sshKeys, [AuthMethod.agentM conn], ms, rfl, by rw [hb],
            fun _ => ⟨conn, rfl, rfl⟩,
            fun hf => by rw [hf] at ha; simp at ha,
            by simp [← h]⟩
    · simp only [ha, if_false] at h
      rcases hb : buildKeyMethods w sshKeys with ⟨br, tr3⟩
      rw [hb] at h
      rcases br with e | ms
      · simp at h
      · dsimp at h
        by_cases hlen : ms.length = 0
        · simp [hlen] at h
        · simp [hlen] at h
          exact ⟨sshKeys, [], ms, rfl, by rw [hb],
            fun ht => by rw [ht] at ha; simp at ha, fun _ => rfl,
            by simp [← h]⟩

lemma getLocalAgentConn_error (cfg : Config) (w : World) (e : Err)
    (h : getLocalAgentConn cfg w = .error e) :
    e = Err.noAuthSock ∨ e = Err.agentDialFailed := by
  unfold getLocalAgentConn at h
  dsimp only at h
  split at h <;> split at h
  all_goals
    first
      | exact Or.inl (Except.error.inj h).symm
      | (split at h
         · exact Or.inr (Except.error.inj h).symm
         · exact absurd h (by simp))

/-- A construction environment with an empty data dir, a keygen run that
writes nothing visible, no reachable agent and parseable key files. -/
def wEmpty : World :=
  { dataPath := .ok "/data/cloud.charm.sh", fsFiles := []
    glob1Fails := false, glob2Fails := false, keygen := .ok []
    sshAuthSockEnv := "", agentDial := fun _ => none
    readKey := fun p => .ok ("signer:" ++ p) }

/-- A construction environment whose data dir already holds the
`charm_ed25519` key file. -/
def wKeys : World :=
  { dataPath := .ok "/data/cloud.charm.sh", fsFiles := ["charm_ed25519"]
    glob1Fails := false, glob2Fails := false, keygen := .ok []
    sshAuthSockEnv := "", agentDial := fun _ => none
    readKey := fun p => .ok ("signer:" ++ p) }

/-! Section: C2: empty method list is terminal and never dials -/

/-- Claim C2: If no agent method is requested and the key phase resolves
no keys, construction fails with exactly `charm.ErrMissingSSHAuth` and
the remote host is never dialled. -/
theorem empty_auth_fails (cfg : Config) (w : World)
    (hagent : cfg.UseSSHAgent = false)
    (hkeys : (newClientKeys cfg w).1 = .ok []) :
    (runNewClient cfg w).1 = .error .missingSSHAuth ∧
    Event.remoteDial ∉ (runNewClient cfg w).2 :=
  ⟨runNewClient_empty_keys cfg w hagent hkeys,
   runNewClient_no_remoteDial cfg w⟩

/-- Witness for C2: default config against an empty data dir whose
keygen run produces nothing discoverable. -/
theorem empty_auth_fails_w :
    (runNewClient cfg0 wEmpty).1 = .error .missingSSHAuth ∧
    Event.remoteDial ∉ (runNewClient cfg0 wEmpty).2 :=
  empty_auth_fails cfg0 wEmpty rfl rfl

/-! Section: C5: agent dial failure is fatal -/

/-- Claim C5: With agent auth requested, if the key phase succeeded but
the agent socket cannot be resolved or dialled, construction fails with
that error (one of the two agent errors); it does not fall back to
on-disk keys. -/
theorem agent_failure_fatal (cfg : Config) (w : World) (ks : List String)
    (e : Err)
    (hagent : cfg.UseSSHAgent = true)
    (hkeys : (newClientKeys cfg w).1 = .ok ks)
    (hconn : getLocalAgentConn cfg w = .error e) :
    (runNewClient cfg w).1 = .error e ∧
    (e = .noAuthSock ∨ e = .agentDialFailed) := by
  refine ⟨?_, getLocalAgentConn_error cfg w e hconn⟩
  rcases hk : newClientKeys cfg w with ⟨r, tr1⟩
  rw [hk] at hkeys
  have hr : r = .ok ks := hkeys
  subst hr
  unfold runNewClient
  rw [hk]
  simp [hagent, hconn]

/-- Witness for C5: agent requested, no socket configured and no
`SSH_AUTH_SOCK` in the environment. -/
theorem agent_failure_fatal_w :
    (runNewClient { cfg0 with UseSSHAgent := true } wEmpty).1 =
      .error .noAuthSock ∧
    (Err.noAuthSock = .noAuthSock ∨ Err.noAuthSock = .agentDialFailed) :=
  agent_failure_fatal { cfg0 with UseSSHAgent := true } wEmpty []
    .noAuthSock rfl rfl rfl

/-! Section: C6: method ordering -/

/-- Claim C6: On successful construction the method list is the agent
method (exactly when agent auth is enabled) followed by one public-key
method per resolved key, in discovery order. -/
theorem auth_method_ordering (cfg : Config) (w : World) (c : Client)
    (h : (runNewClient cfg w).1 = .ok c) :
    ∃ ks agentMs ms,
      (newClientKeys cfg w).1 = .ok ks ∧
      (cfg.UseSSHAgent = true → ∃ conn,
        getLocalAgentConn cfg w = .ok conn ∧
        agentMs = [AuthMethod.agentM conn]) ∧
      (cfg.UseSSHAgent = false → agentMs = []) ∧
      List.Forall₂
        (fun k m => ∃ s, w.readKey k = .ok s ∧ m = AuthMethod.publicKeys s)
        ks ms ∧
      c.sshAuth = agentMs ++ ms := by
  obtain ⟨ks, agentMs, ms, h1, h2, h3, h4, h5⟩ := runNewClient_ok_inv cfg w c h
  exact ⟨ks, agentMs, ms, h1, h3, h4, buildKeyMethods_ok w ks ms h2,
    by rw [h5]⟩

/-- Witness for C6: a successful agentless construction from one
discovered key file. -/
theorem auth_method_ordering_w :
    ∃ ks agentMs ms,
      (newClientKeys cfg0 wKeys).1 = .ok ks ∧
      (cfg0.UseSSHAgent = true → ∃ conn,
        getLocalAgentConn cfg0 wKeys = .ok conn ∧
        agentMs = [AuthMethod.agentM conn]) ∧
      (cfg0.UseSSHAgent = false → agentMs = []) ∧
      List.Forall₂
        (fun k m => ∃ s, wKeys.readKey k = .ok s ∧
          m = AuthMethod.publicKeys s) ks ms ∧
      (Client.mk cfg0
        [AuthMethod.publicKeys
          "signer:/data/cloud.charm.sh/charm_ed25519"]).sshAuth =
        agentMs ++ ms :=
  auth_method_ordering cfg0 wKeys
    (Client.mk cfg0
      [AuthMethod.publicKeys "signer:/data/cloud.charm.sh/charm_ed25519"])
    rfl

/-! Section: C7: explicit identity key bypasses discovery -/

/-- Claim C7: With an explicit identity key, construction performs no
discovery and no generation, and the only on-disk key it ever reads is
that identity-key path. -/
theorem identity_key_bypass (cfg : Config) (w : World)
    (h : cfg.IdentityKey ≠ "") :
    newClientKeys cfg w = (.ok [cfg.IdentityKey], []) ∧
    Event.findKeys ∉ (runNewClient cfg w).2 ∧
    Event.keygenE ∉ (runNewClient cfg w).2 ∧
    ∀ p, Event.readKeyE p ∈ (runNewClient cfg w).2 →
      p = cfg.IdentityKey := by
  have hk : newClientKeys cfg w = (.ok [cfg.IdentityKey], []) := by
    unfold newClientKeys
    rw [if_pos h]
  obtain ⟨tr2, tr3, htr, h2, h3⟩ := runNewClient_tr cfg w
  rw [hk] at htr
  simp only [List.nil_append] at htr
  have hsub : ∀ ev ∈ (runNewClient cfg w).2,
      ev = Event.agentDialE ∨ ev = Event.readKeyE cfg.IdentityKey := by
    intro ev hev
    rw [htr] at hev
    simp only [List.mem_append] at hev
    rcases hev with hev | hev
    · rcases h2 with h2 | h2 <;> subst h2
      · simp at hev
      · simp at hev
        simp [hev]
    · rcases h3 with h3 | ⟨ks, hks, h3⟩
      · subst h3; simp at hev
      · rw [hk] at hks
        have hks' : ks = [cfg.IdentityKey] := (Except.ok.inj hks).symm
        subst hks' h3
        obtain ⟨p, hp, hmem⟩ := buildKeyMethods_tr w _ ev hev
        simp at hmem
        subst hmem
        simp [hp]
  refine ⟨hk, fun hmem => ?_, fun hmem => ?_, fun p hmem => ?_⟩
  · rcases hsub _ hmem with h' | h' <;> simp at h'
  · rcases hsub _ hmem with h' | h' <;> simp at h'
  · rcases hsub _ hmem with h' | h'
    · simp at h'
    · exact Event.readKeyE.inj h'

/-- Witness for C7 at a concrete identity-key path. -/
theorem identity_key_bypass_w :
    newClientKeys { cfg0 with IdentityKey := "/home/u/.ssh/id" } wEmpty =
      (.ok ["/home/u/.ssh/id"], []) ∧
    Event.findKeys ∉
      (runNewClient { cfg0 with IdentityKey := "/home/u/.ssh/id" } wEmpty).2 ∧
    Event.keygenE ∉
      (runNewClient { cfg0 with IdentityKey := "/home/u/.ssh/id" } wEmpty).2 ∧
    ∀ p, Event.readKeyE p ∈
        (runNewClient { cfg0 with IdentityKey := "/home/u/.ssh/id" } wEmpty).2 →
      p = "/home/u/.ssh/id" :=
  identity_key_bypass { cfg0 with IdentityKey := "/home/u/.ssh/id" } wEmpty
    (by decide)

/-! Section: C1: generate-on-miss runs exactly once; the failure clause needs
amending -/

/-- A configuration that requests key type `"ED25519"` and agent auth;
keygen writes lower-case `charm_ed25519` files, so the re-run discovery
(filtering on `charm_ED25519`) is still empty. -/
def cfgC1 : Config :=
  { cfg0 with
    KeyType := "ED25519"
    UseSSHAgent := true
    SSHAgentAddr := "/tmp/agent.sock" }

/-- Environment for the C1 counterexample: empty data dir, keygen writes
`charm_ed25519` and its public half, and the agent dial succeeds. -/
def wC1 : World :=
  { dataPath := .ok "/data/cloud.charm.sh", fsFiles := []
    glob1Fails := false, glob2Fails := false
    keygen := .ok ["charm_ed25519", "charm_ed25519.pub"]
    sshAuthSockEnv := "", agentDial := fun _ => some 1
    readKey := fun p => .ok ("signer:" ++ p) }

/-- Counterexample to claim C1: Without an identity key, first discovery is
empty, one keypair is generated, the re-run discovery is *still* empty —
yet construction succeeds (with the agent method alone) instead of
failing permanently as the claim states. -/
theorem newClient_ok_on_empty_rediscovery :
    cfgC1.IdentityKey = "" ∧
    findAuthKeysRun wC1 wC1.fsFiles wC1.glob1Fails cfgC1.KeyType = .ok [] ∧
    wC1.keygen = .ok ["charm_ed25519", "charm_ed25519.pub"] ∧
    findAuthKeysRun wC1 (wC1.fsFiles ++ ["charm_ed25519", "charm_ed25519.pub"])
      wC1.glob2Fails cfgC1.KeyType = .ok [] ∧
    (runNewClient cfgC1 wC1).1 =
      .ok { config := cfgC1, sshAuth := [AuthMethod.agentM 1] } :=
  ⟨rfl, rfl, rfl, rfl, rfl⟩

/-- Claim C1 as amended: Without an identity key, if discovery returns zero
keys and generation succeeds, then exactly one keypair is generated and
discovery is re-invoked exactly once (two discovery calls in total,
never a retry); and if the re-invoked discovery is still empty and agent
auth is not enabled, construction fails with the missing-SSH-auth
error. -/
theorem keygen_once_rediscovery_once (cfg : Config) (w : World)
    (nf : List String)
    (hid : cfg.IdentityKey = "")
    (h1 : findAuthKeysRun w w.fsFiles w.glob1Fails cfg.KeyType = .ok [])
    (hkg : w.keygen = .ok nf) :
    ((runNewClient cfg w).2.count Event.findKeys = 2 ∧
     (runNewClient cfg w).2.count Event.keygenE = 1) ∧
    (findAuthKeysRun w (w.fsFiles ++ nf) w.glob2Fails cfg.KeyType = .ok [] →
      cfg.UseSSHAgent = false →
      (runNewClient cfg w).1 = .error .missingSSHAuth) := by
  rcases hdpc : w.dataPath with e | dp
  · exfalso
    unfold findAuthKeysRun at h1
    rw [hdpc] at h1
    simp at h1
  have hk : newClientKeys cfg w =
      (findAuthKeysRun w (w.fsFiles ++ nf) w.glob2Fails cfg.KeyType,
       [Event.findKeys, Event.keygenE, Event.findKeys]) := by
    unfold newClientKeys
    rw [if_neg (by simp [hid])]
    rw [h1]
    dsimp only
    rw [if_pos (show ([] : List String).length = 0 from rfl)]
    rw [hdpc, hkg]
    rcases h2 : findAuthKeysRun w (w.fsFiles ++ nf) w.glob2Fails cfg.KeyType
      with e | ks2 <;> simp [h2]
  constructor
  · obtain ⟨tr2, tr3, htr, h2, h3⟩ := runNewClient_tr cfg w
    rw [hk] at htr
    have hf2 : Event.findKeys ∉ tr2 ∧ Event.keygenE ∉ tr2 := by
      rcases h2 with h2 | h2 <;> subst h2 <;> simp
    have hf3 : Event.findKeys ∉ tr3 ∧ Event.keygenE ∉ tr3 := by
      rcases h3 with h3 | ⟨ks, _, h3⟩
      · subst h3; simp
      · subst h3
        constructor <;> intro hmem <;>
          (obtain ⟨p, hp, _⟩ := buildKeyMethods_tr w ks _ hmem; simp at hp)
    rw [htr]
    simp [List.count_append, List.count_eq_zero.mpr hf2.1,
      List.count_eq_zero.mpr hf2.2, List.count_eq_zero.mpr hf3.1,
      List.count_eq_zero.mpr hf3.2, List.count_cons]
  · intro h2e hagf
    have hkeys : (newClientKeys cfg w).1 = .ok [] := by
      rw [hk]
      exact h2e
    exact runNewClient_empty_keys cfg w hagf hkeys

/-- Witness for the amended C1: empty dir, keygen writes nothing
discoverable, no agent: both discovery calls run, one generation, and
construction fails with the missing-auth error. -/
theorem keygen_once_rediscovery_once_w :
    ((runNewClient cfg0 wEmpty).2.count Event.findKeys = 2 ∧
     (runNewClient cfg0 wEmpty).2.count Event.keygenE = 1) ∧
    (runNewClient cfg0 wEmpty).1 = .error .missingSSHAuth :=
  ⟨(keygen_once_rediscovery_once cfg0 wEmpty [] rfl rfl rfl).1,
   (keygen_once_rediscovery_once cfg0 wEmpty [] rfl rfl rfl).2 rfl rfl⟩

end Charm
